import Mathlib

/-!
Shallow embedding of `src/main.rs` of the picoboy-color project template:
a joystick-driven sprite demo.  The program initializes the hardware, clears
the display, and then runs an infinite polling loop that integrates four
active-low inputs into an `i32` position with saturating arithmetic and
repaints a filled circle when the position changed.

The hardware bring-up (clocks, SPI, pin muxing) and the display transport are
out of scope, as the spec declares them opaque collaborators.  We model the
observable behaviour of the loop: the evolution of the position state
(`x`, `y`, `old_x`, `old_y`) and the sequence of display operations issued.
-/

namespace PicoboyColor

/-- `i32::MIN` = -2^31, the lower bound of Rust's 32-bit signed integers. -/
def i32Min : Int := -2147483648

/-- `i32::MAX` = 2^31 - 1, the upper bound of Rust's 32-bit signed integers. -/
def i32Max : Int := 2147483647

/-- Rust `i32::saturating_add`: addition clamped to the representable range. -/
def saturating_add (a b : Int) : Int :=
  if a + b > i32Max then i32Max
  else if a + b < i32Min then i32Min
  else a + b

/-- Rust `i32::saturating_sub`: subtraction clamped to the representable range. -/
def saturating_sub (a b : Int) : Int :=
  if a - b > i32Max then i32Max
  else if a - b < i32Min then i32Min
  else a - b

/-- `v` is representable as an `i32`. -/
abbrev InRange (v : Int) : Prop := i32Min ≤ v ∧ v ≤ i32Max

/-- The four joystick lines as sampled by one loop iteration.  Each field is
`true` when the corresponding `is_low().unwrap()` call returns true, i.e. the
active-low button is pressed (`joystick_down`, `joystick_up`,
`joystick_right`, `joystick_left` in `main.rs` lines 130-144). -/
structure Inputs where
  down : Bool
  up : Bool
  right : Bool
  left : Bool
  deriving DecidableEq

/-- `embedded_graphics::geometry::Point`: a pair of `i32` coordinates, modelled
as unbounded integers (all values the program ever passes are in range). -/
structure Point where
  x : Int
  y : Int
  deriving DecidableEq

/-- The three `Rgb565` color constants the program uses. -/
inductive Rgb565 where
  | RED
  | BLACK
  | MAGENTA
  deriving DecidableEq

/-- One blocking operation issued to the display, abstracted at the call
boundary of the external driver crates:
* `clear c` models `display.clear(c).unwrap()`;
* `drawCircle p s c` models
  `Circle::new(p, s).into_styled(..fill_color(c)..).draw(&mut display).unwrap()`,
  recording exactly the point and size parameters the program passes to
  `Circle::new`.  Their geometric interpretation is the business of the
  external `embedded-graphics` crate, which the spec treats as an opaque
  draw-primitive collaborator. -/
inductive DisplayOp where
  | clear (color : Rgb565)
  | drawCircle (point : Point) (size : Nat) (color : Rgb565)
  deriving DecidableEq

/-- `const DISPLAY_WIDTH: i32 = 240;` (`main.rs` line 67). -/
def DISPLAY_WIDTH : Int := 240

/-- `const DISPLAY_HEIGHT: i32 = 280;` (`main.rs` line 68). -/
def DISPLAY_HEIGHT : Int := 280

/-- The mutable loop state: the position `(x, y)` and the previous-position
shadow `(old_x, old_y)` (`main.rs` lines 119-123). -/
structure LoopState where
  x : Int
  y : Int
  old_x : Int
  old_y : Int
  deriving DecidableEq

/-- The state just before the loop is entered:
`x = DISPLAY_WIDTH / 2`, `y = DISPLAY_HEIGHT / 2`, `old_x = 0`, `old_y = 0`
(`main.rs` lines 119-123). -/
def initState : LoopState :=
  { x := DISPLAY_WIDTH / 2, y := DISPLAY_HEIGHT / 2, old_x := 0, old_y := 0 }

/-- The two whole-screen clears issued before the loop starts
(`main.rs` lines 107 and 126). -/
def startupClears : List DisplayOp :=
  [DisplayOp.clear Rgb565.RED, DisplayOp.clear Rgb565.BLACK]

/-- The vertical update of one iteration (`main.rs` lines 131-137):
`if joystick_down.is_low() { y = y.saturating_add(2); }` then
`if joystick_up.is_low() { y = y.saturating_sub(2); }`. -/
def updateY (i : Inputs) (y : Int) : Int :=
  let y1 := if i.down then saturating_add y 2 else y
  if i.up then saturating_sub y1 2 else y1

/-- The horizontal update of one iteration (`main.rs` lines 139-145):
`if joystick_right.is_low() { x = x.saturating_add(2); }` then
`if joystick_left.is_low() { x = x.saturating_sub(2); }`. -/
def updateX (i : Inputs) (x : Int) : Int :=
  let x1 := if i.right then saturating_add x 2 else x
  if i.left then saturating_sub x1 2 else x1

/-- The position after one iteration's input handling, as an `(x, y)` pair. -/
def updatePosition (i : Inputs) (x y : Int) : Int × Int :=
  (updateX i x, updateY i y)

/-- One iteration of the polling loop (`main.rs` lines 128-168): sample the
four inputs, update the position, and if it differs from the previous redraw
position on either axis, paint over the old circle in `BLACK`, draw the new
circle in `MAGENTA`, and update the shadow.  Returns the new state and the
list of display operations issued, in order. -/
def loopStep (i : Inputs) (s : LoopState) : LoopState × List DisplayOp :=
  let x := updateX i s.x
  let y := updateY i s.y
  if x ≠ s.old_x ∨ y ≠ s.old_y then
    (⟨x, y, x, y⟩,
      [DisplayOp.drawCircle ⟨s.old_x, s.old_y⟩ 25 Rgb565.BLACK,
       DisplayOp.drawCircle ⟨x, y⟩ 25 Rgb565.MAGENTA])
  else
    (⟨x, y, s.old_x, s.old_y⟩, [])

/-- The states the loop can be in: the initial state, and anything one
iteration reaches from a reachable state under some input sample. -/
inductive Reachable : LoopState → Prop where
  | init : Reachable initState
  | step (i : Inputs) {s : LoopState} : Reachable s → Reachable (loopStep i s).1

/-- The display operations of the first loop iteration, given the first
input sample. -/
def firstIterationOps (i : Inputs) : List DisplayOp :=
  (loopStep i initState).2

/-- Modelled from the spec: section 4.2 specifies `clear(color)` as
"fills the entire addressable canvas with a solid color".  The implementation
lives in the external `st7789` driver crate, not in this repository, so the
canvas is modelled as a color assignment to every addressable point and
`clear` as the constant assignment. -/
def Canvas : Type := Point → Rgb565

/-- Modelled from the spec: `clear(color)` replaces the whole canvas content
with the given solid color. -/
def clearCanvas (color : Rgb565) (_canvas : Canvas) : Canvas :=
  fun _ => color

/-! ### Basic lemmas about the saturating arithmetic and the step -/

theorem saturating_add_inRange (a b : Int) : InRange (saturating_add a b) := by
  unfold saturating_add InRange i32Min i32Max
  split
  · omega
  · split <;> omega

theorem saturating_sub_inRange (a b : Int) : InRange (saturating_sub a b) := by
  unfold saturating_sub InRange i32Min i32Max
  split
  · omega
  · split <;> omega

theorem saturating_add_two_eq (a : Int) (h1 : i32Min ≤ a) (h2 : a + 2 ≤ i32Max) :
    saturating_add a 2 = a + 2 := by
  unfold saturating_add i32Min i32Max at *
  split
  · omega
  · split <;> omega

theorem saturating_sub_two_eq (a : Int) (h1 : i32Min ≤ a - 2) (h2 : a ≤ i32Max) :
    saturating_sub a 2 = a - 2 := by
  unfold saturating_sub i32Min i32Max at *
  split
  · omega
  · split <;> omega

theorem saturating_add_two_bounds (a : Int) (ha : InRange a) :
    a ≤ saturating_add a 2 ∧ saturating_add a 2 ≤ a + 2 := by
  unfold saturating_add InRange i32Min i32Max at *
  split
  · omega
  · split <;> omega

theorem saturating_sub_two_bounds (a : Int) (ha : InRange a) :
    a - 2 ≤ saturating_sub a 2 ∧ saturating_sub a 2 ≤ a := by
  unfold saturating_sub InRange i32Min i32Max at *
  split
  · omega
  · split <;> omega

theorem updateX_inRange (i : Inputs) (x : Int) (hx : InRange x) :
    InRange (updateX i x) := by
  unfold updateX
  cases hl : i.left <;> cases hr : i.right <;> simp only [hl, hr] <;>
    first
      | exact hx
      | exact saturating_add_inRange x 2
      | exact saturating_sub_inRange _ 2

theorem updateY_inRange (i : Inputs) (y : Int) (hy : InRange y) :
    InRange (updateY i y) := by
  unfold updateY
  cases hu : i.up <;> cases hd : i.down <;> simp only [hu, hd] <;>
    first
      | exact hy
      | exact saturating_add_inRange y 2
      | exact saturating_sub_inRange _ 2

theorem loopStep_fst_x (i : Inputs) (s : LoopState) :
    (loopStep i s).1.x = updateX i s.x := by
  unfold loopStep
  dsimp only
  split <;> rfl

theorem loopStep_fst_y (i : Inputs) (s : LoopState) :
    (loopStep i s).1.y = updateY i s.y := by
  unfold loopStep
  dsimp only
  split <;> rfl

theorem reachable_inRange {s : LoopState} (hs : Reachable s) :
    InRange s.x ∧ InRange s.y := by
  induction hs with
  | init => exact ⟨by constructor <;> decide, by constructor <;> decide⟩
  | step i hr ih =>
    rw [loopStep_fst_x, loopStep_fst_y]
    exact ⟨updateX_inRange i _ ih.1, updateY_inRange i _ ih.2⟩

theorem loopStep_snd (i : Inputs) (s : LoopState) :
    (loopStep i s).2 =
      if updateX i s.x ≠ s.old_x ∨ updateY i s.y ≠ s.old_y then
        [DisplayOp.drawCircle ⟨s.old_x, s.old_y⟩ 25 Rgb565.BLACK,
         DisplayOp.drawCircle ⟨updateX i s.x, updateY i s.y⟩ 25 Rgb565.MAGENTA]
      else [] := by
  unfold loopStep
  dsimp only
  split <;> rfl

/-- The input sample with only `joystick_down` pressed. -/
def downOnly : Inputs := ⟨true, false, false, false⟩

/-- The input sample with no button pressed. -/
def noInput : Inputs := ⟨false, false, false, false⟩

/-- The loop state after `k` iterations in which only `joystick_down` is
pressed, starting from the initial state. -/
def stateAfterDowns : Nat → LoopState
  | 0 => initState
  | k + 1 => (loopStep downOnly (stateAfterDowns k)).1

theorem stateAfterDowns_reachable (k : Nat) : Reachable (stateAfterDowns k) := by
  induction k with
  | zero => exact Reachable.init
  | succ k ih => exact Reachable.step downOnly ih

theorem updateX_downOnly (x : Int) : updateX downOnly x = x := rfl

theorem updateY_downOnly (y : Int) : updateY downOnly y = saturating_add y 2 := rfl

theorem stateAfterDowns_x (k : Nat) : (stateAfterDowns k).x = 120 := by
  induction k with
  | zero => rfl
  | succ k ih =>
    show (loopStep downOnly (stateAfterDowns k)).1.x = 120
    rw [loopStep_fst_x, updateX_downOnly, ih]

theorem stateAfterDowns_y (k : Nat) :
    (stateAfterDowns k).y = min (140 + 2 * (k : Int)) i32Max := by
  induction k with
  | zero =>
    show (140 : Int) = min (140 + 2 * ((0 : Nat) : Int)) i32Max
    unfold i32Max
    omega
  | succ k ih =>
    show (loopStep downOnly (stateAfterDowns k)).1.y = _
    rw [loopStep_fst_y, updateY_downOnly, ih]
    have hk : (0 : Int) ≤ (k : Int) := Int.natCast_nonneg k
    unfold saturating_add i32Max i32Min
    push_cast
    split
    · omega
    · split <;> omega

theorem stateAfterDowns_y_max : (stateAfterDowns (2 ^ 30)).y = i32Max := by
  rw [stateAfterDowns_y]
  have h : ((2 ^ 30 : Nat) : Int) = 1073741824 := by norm_num
  rw [h]
  unfold i32Max
  omega

/-! ### Claims -/

/-- C1, counterexample: the first drawing is NOT issued before the first input
sample, and it does not always place the sprite at (120, 140).  The loop body
samples the joystick before drawing anything, so the first iteration's display
operations depend on the first input sample: if `joystick_right` is pressed in
the first sample, the first sprite draw is at (122, 140), not (120, 140). -/
theorem C1_counterexample :
    firstIterationOps ⟨false, false, true, false⟩ =
      [DisplayOp.drawCircle ⟨0, 0⟩ 25 Rgb565.BLACK,
       DisplayOp.drawCircle ⟨122, 140⟩ 25 Rgb565.MAGENTA] ∧
    (Point.mk 122 140 ≠ Point.mk 120 140) ∧
    firstIterationOps ⟨false, false, true, false⟩ ≠ firstIterationOps noInput := by
  decide

/-- C1, amended: on startup the position variable is initialized to the canvas
midpoint (120, 140) = (DISPLAY_WIDTH / 2, DISPLAY_HEIGHT / 2) before any input
is sampled; the first drawing is issued only after the first input sample, and
when that sample asserts no direction, the first sprite draw places the sprite
at (120, 140). -/
theorem C1_amended_initial_position :
    initState.x = DISPLAY_WIDTH / 2 ∧ initState.y = DISPLAY_HEIGHT / 2 ∧
    initState.x = 120 ∧ initState.y = 140 ∧
    firstIterationOps noInput =
      [DisplayOp.drawCircle ⟨0, 0⟩ 25 Rgb565.BLACK,
       DisplayOp.drawCircle ⟨120, 140⟩ 25 Rgb565.MAGENTA] := by
  decide

/-- C2: every display operation a loop iteration issues is a circle primitive
with size parameter 25; the `BLACK` (erase) one carries the previous redraw
position `(old_x, old_y)` and the `MAGENTA` (draw) one carries the updated
position, exactly as they are passed to `Circle::new`. -/
theorem C2_circle_parameters (i : Inputs) (s : LoopState) (op : DisplayOp)
    (hop : op ∈ (loopStep i s).2) :
    op = DisplayOp.drawCircle ⟨s.old_x, s.old_y⟩ 25 Rgb565.BLACK ∨
    op = DisplayOp.drawCircle
        ⟨(updatePosition i s.x s.y).1, (updatePosition i s.x s.y).2⟩ 25 Rgb565.MAGENTA := by
  rw [loopStep_snd] at hop
  split at hop
  · simp only [List.mem_cons, List.not_mem_nil, or_false] at hop
    exact hop
  · exact absurd hop (List.not_mem_nil op)

/-- Closed witness for C2 at the first iteration under `joystick_down`. -/
theorem C2_circle_parameters_witness :
    DisplayOp.drawCircle ⟨0, 0⟩ 25 Rgb565.BLACK =
        DisplayOp.drawCircle ⟨initState.old_x, initState.old_y⟩ 25 Rgb565.BLACK ∨
    DisplayOp.drawCircle ⟨0, 0⟩ 25 Rgb565.BLACK =
        DisplayOp.drawCircle
          ⟨(updatePosition downOnly initState.x initState.y).1,
           (updatePosition downOnly initState.x initState.y).2⟩ 25 Rgb565.MAGENTA :=
  C2_circle_parameters downOnly initState _ (by decide)

/-- C3: for every reachable loop state and every combination of the four
inputs, one iteration's position update stays inside the representable `i32`
range on both axes. -/
theorem C3_saturating_motion (s : LoopState) (hs : Reachable s) (i : Inputs) :
    InRange (updatePosition i s.x s.y).1 ∧ InRange (updatePosition i s.x s.y).2 := by
  have h := reachable_inRange hs
  exact ⟨updateX_inRange i s.x h.1, updateY_inRange i s.y h.2⟩

/-- Closed witness for C3 at the initial state under `joystick_down`. -/
theorem C3_saturating_motion_witness :
    InRange (updatePosition downOnly initState.x initState.y).1 ∧
    InRange (updatePosition downOnly initState.x initState.y).2 :=
  C3_saturating_motion initState Reachable.init downOnly

/-- C4: in an iteration where the updated position equals the previous redraw
position on both axes, no display operation is issued and the
previous-position shadow is unchanged. -/
theorem C4_change_gated_redraw (i : Inputs) (s : LoopState)
    (hx : (updatePosition i s.x s.y).1 = s.old_x)
    (hy : (updatePosition i s.x s.y).2 = s.old_y) :
    (loopStep i s).2 = [] ∧
    (loopStep i s).1.old_x = s.old_x ∧ (loopStep i s).1.old_y = s.old_y := by
  unfold loopStep
  dsimp only
  rw [if_neg]
  · exact ⟨rfl, rfl, rfl⟩
  · push_neg
    exact ⟨hx, hy⟩

/-- Closed witness for C4: no button pressed while the shadow already equals
the position. -/
theorem C4_change_gated_redraw_witness :
    (loopStep noInput ⟨120, 140, 120, 140⟩).2 = [] ∧
    (loopStep noInput ⟨120, 140, 120, 140⟩).1.old_x = 120 ∧
    (loopStep noInput ⟨120, 140, 120, 140⟩).1.old_y = 140 :=
  C4_change_gated_redraw noInput ⟨120, 140, 120, 140⟩ (by decide) (by decide)

/-- C5: in an iteration where the updated position differs from the previous
redraw position on either axis, exactly two display operations are issued, in
order: first the `BLACK` circle at the previous position, then the `MAGENTA`
circle at the new position; afterwards the shadow equals the new position. -/
theorem C5_erase_before_draw (i : Inputs) (s : LoopState)
    (h : (updatePosition i s.x s.y).1 ≠ s.old_x ∨ (updatePosition i s.x s.y).2 ≠ s.old_y) :
    (loopStep i s).2 =
      [DisplayOp.drawCircle ⟨s.old_x, s.old_y⟩ 25 Rgb565.BLACK,
       DisplayOp.drawCircle
         ⟨(updatePosition i s.x s.y).1, (updatePosition i s.x s.y).2⟩ 25 Rgb565.MAGENTA] ∧
    (loopStep i s).1.old_x = (updatePosition i s.x s.y).1 ∧
    (loopStep i s).1.old_y = (updatePosition i s.x s.y).2 := by
  have h' : updateX i s.x ≠ s.old_x ∨ updateY i s.y ≠ s.old_y := h
  unfold loopStep
  dsimp only
  rw [if_pos h']
  exact ⟨rfl, rfl, rfl⟩

/-- Closed witness for C5 at the first iteration under `joystick_down`. -/
theorem C5_erase_before_draw_witness :
    (loopStep downOnly initState).2 =
      [DisplayOp.drawCircle ⟨initState.old_x, initState.old_y⟩ 25 Rgb565.BLACK,
       DisplayOp.drawCircle
         ⟨(updatePosition downOnly initState.x initState.y).1,
          (updatePosition downOnly initState.x initState.y).2⟩ 25 Rgb565.MAGENTA] ∧
    (loopStep downOnly initState).1.old_x = (updatePosition downOnly initState.x initState.y).1 ∧
    (loopStep downOnly initState).1.old_y = (updatePosition downOnly initState.x initState.y).2 :=
  C5_erase_before_draw downOnly initState (Or.inl (by decide))

/-- C6, counterexample: the claim quantifies over any position, but at
`x = i32Max` the saturating addition clamps, so pressing only
`joystick_right` for one iteration leaves `x` unchanged instead of adding 2. -/
theorem C6_counterexample :
    updatePosition ⟨false, false, true, false⟩ i32Max 0 = (i32Max, 0) ∧
    (updatePosition ⟨false, false, true, false⟩ i32Max 0).1 - i32Max ≠ 2 := by
  decide

/-- C6, amended: for any position whose stepped axis is at least 2 away from
the saturation bound in the stepped direction, asserting exactly one of the
four inputs for one iteration changes the corresponding axis by exactly 2
(down: y+2, up: y-2, right: x+2, left: x-2) and leaves the other axis
unchanged. -/
theorem C6_amended_step_magnitude (x y : Int) (hx : InRange x) (hy : InRange y) :
    (y + 2 ≤ i32Max → updatePosition ⟨true, false, false, false⟩ x y = (x, y + 2)) ∧
    (i32Min ≤ y - 2 → updatePosition ⟨false, true, false, false⟩ x y = (x, y - 2)) ∧
    (x + 2 ≤ i32Max → updatePosition ⟨false, false, true, false⟩ x y = (x + 2, y)) ∧
    (i32Min ≤ x - 2 → updatePosition ⟨false, false, false, true⟩ x y = (x - 2, y)) := by
  refine ⟨fun h => ?_, fun h => ?_, fun h => ?_, fun h => ?_⟩
  · have ha := saturating_add_two_eq y hy.1 h
    unfold updatePosition updateX updateY
    simp [ha]
  · have hb := saturating_sub_two_eq y h hy.2
    unfold updatePosition updateX updateY
    simp [hb]
  · have ha := saturating_add_two_eq x hx.1 h
    unfold updatePosition updateX updateY
    simp [ha]
  · have hb := saturating_sub_two_eq x h hx.2
    unfold updatePosition updateX updateY
    simp [hb]

/-- Closed witness for C6 (amended) at position (120, 140). -/
theorem C6_amended_step_magnitude_witness :
    updatePosition ⟨true, false, false, false⟩ 120 140 = (120, 140 + 2) ∧
    updatePosition ⟨false, true, false, false⟩ 120 140 = (120, 140 - 2) ∧
    updatePosition ⟨false, false, true, false⟩ 120 140 = (120 + 2, 140) ∧
    updatePosition ⟨false, false, false, true⟩ 120 140 = (120 - 2, 140) := by
  have h := C6_amended_step_magnitude 120 140 (by decide) (by decide)
  exact ⟨h.1 (by decide), h.2.1 (by decide), h.2.2.1 (by decide), h.2.2.2 (by decide)⟩

/-- C7, counterexample: the position with `y = i32Max` is reachable (hold
`joystick_down` for 2^30 iterations), and there asserting both up and down for
one iteration changes the vertical axis: the +2 step saturates at `i32Max`,
then the -2 step brings `y` down to `i32Max - 2`. -/
theorem C7_counterexample :
    Reachable (stateAfterDowns (2 ^ 30)) ∧
    (stateAfterDowns (2 ^ 30)).y = i32Max ∧
    (updatePosition ⟨true, true, false, false⟩ (stateAfterDowns (2 ^ 30)).x
        (stateAfterDowns (2 ^ 30)).y).2 ≠ (stateAfterDowns (2 ^ 30)).y := by
  refine ⟨stateAfterDowns_reachable _, stateAfterDowns_y_max, ?_⟩
  rw [stateAfterDowns_x, stateAfterDowns_y_max]
  decide

/-- C7, amended: asserting both up and down simultaneously for one iteration
leaves the vertical axis unchanged for every position whose vertical
coordinate satisfies `i32Min ≤ y` and `y + 2 ≤ i32Max`, i.e. whenever the +2
step does not saturate; at the reachable positions with `y > i32Max - 2` the
vertical axis decreases instead. -/
theorem C7_amended_opposing_inputs (x y : Int) (h1 : i32Min ≤ y) (h2 : y + 2 ≤ i32Max) :
    (updatePosition ⟨true, true, false, false⟩ x y).2 = y := by
  have ha := saturating_add_two_eq y h1 h2
  have hb := saturating_sub_two_eq (y + 2) (by omega) h2
  unfold updatePosition updateX updateY
  simp [ha, hb]

/-- Closed witness for C7 (amended) at position (120, 140). -/
theorem C7_amended_opposing_inputs_witness :
    (updatePosition ⟨true, true, false, false⟩ 120 140).2 = 140 :=
  C7_amended_opposing_inputs 120 140 (by decide) (by decide)

/-- C8: clearing the canvas twice with the same color yields the same canvas
state as clearing it once (the whole-canvas solid fill is idempotent).  The
fill itself lives in the external display driver and is modelled from the
spec's contract for `clear`. -/
theorem C8_clear_idempotent (c : Rgb565) (canvas : Canvas) :
    clearCanvas c (clearCanvas c canvas) = clearCanvas c canvas := rfl

/-- C9: from any representable `i32` position and for every combination of
the four inputs, each axis changes by at most one ±2 step in one iteration:
the per-axis change lies in [-2, 2]. -/
theorem C9_per_axis_step_bound (i : Inputs) (x y : Int)
    (hx : InRange x) (hy : InRange y) :
    -2 ≤ (updatePosition i x y).1 - x ∧ (updatePosition i x y).1 - x ≤ 2 ∧
    -2 ≤ (updatePosition i x y).2 - y ∧ (updatePosition i x y).2 - y ≤ 2 := by
  have hX : -2 ≤ updateX i x - x ∧ updateX i x - x ≤ 2 := by
    have h1 := saturating_add_two_bounds x hx
    have h2 := saturating_sub_two_bounds (saturating_add x 2) (saturating_add_inRange x 2)
    have h3 := saturating_sub_two_bounds x hx
    unfold updateX
    cases hr : i.right <;> cases hl : i.left <;> simp [hr, hl] <;> omega
  have hY : -2 ≤ updateY i y - y ∧ updateY i y - y ≤ 2 := by
    have h1 := saturating_add_two_bounds y hy
    have h2 := saturating_sub_two_bounds (saturating_add y 2) (saturating_add_inRange y 2)
    have h3 := saturating_sub_two_bounds y hy
    unfold updateY
    cases hd : i.down <;> cases hu : i.up <;> simp [hd, hu] <;> omega
  exact ⟨hX.1, hX.2, hY.1, hY.2⟩

/-- Closed witness for C9 at position (120, 140) with all four buttons
pressed. -/
theorem C9_per_axis_step_bound_witness :
    -2 ≤ (updatePosition ⟨true, true, true, true⟩ 120 140).1 - 120 ∧
    (updatePosition ⟨true, true, true, true⟩ 120 140).1 - 120 ≤ 2 ∧
    -2 ≤ (updatePosition ⟨true, true, true, true⟩ 120 140).2 - 140 ∧
    (updatePosition ⟨true, true, true, true⟩ 120 140).2 - 140 ≤ 2 :=
  C9_per_axis_step_bound ⟨true, true, true, true⟩ 120 140 (by decide) (by decide)

/-- C10: the previous-position shadow starts at (0, 0) while the position
starts at (120, 140), so whatever the first input sample is, the first
iteration's change guard is true and it issues two operations, the first
being the `BLACK` erase circle at (0, 0). -/
theorem C10_first_erase_at_origin (i : Inputs) :
    initState.x = 120 ∧ initState.y = 140 ∧
    initState.old_x = 0 ∧ initState.old_y = 0 ∧
    (firstIterationOps i).length = 2 ∧
    (firstIterationOps i).head? = some (DisplayOp.drawCircle ⟨0, 0⟩ 25 Rgb565.BLACK) := by
  rcases i with ⟨d, u, r, l⟩
  cases d <;> cases u <;> cases r <;> cases l <;> decide

end PicoboyColor
